import Mathlib

/-!
Verification of the task-tracker access-control and filtering layer.

The development shallowly embeds the repository code:
- data model from src/task_tracker/apps/tasks/models.py and the framework
  user model (id, username, email, names, credential, role flags);
- permission predicates from src/task_tracker/permissions.py;
- serializers from src/task_tracker/apps/{tasks,users}/serializers.py;
- views from src/task_tracker/apps/{tasks,users}/views.py;
- filters from src/task_tracker/apps/tasks/filters.py and
  src/task_tracker/apps/users/filters.py.

Conventions: database rows are lists whose primary keys (id fields) are
pairwise distinct; timestamps are microseconds of local time in the
configured fixed-offset timezone (the code builds day bounds with
timezone.make_aware in the current timezone and compares instants, which
for a fixed offset is exactly comparison of local microsecond counts);
external collaborators delegated to by the code (the regex engine behind
the iregex lookup, the password-strength policy behind validate_password,
and the password hasher behind set_password) enter as function parameters.
-/

namespace TaskTracker

/-- The framework user record (relevant columns). -/
structure User where
  id : Nat
  username : String
  email : String
  first_name : String
  last_name : String
  password : String
  is_staff : Bool
  is_superuser : Bool
  is_active : Bool
deriving DecidableEq, Repr

/-- Task model from src/task_tracker/apps/tasks/models.py: owning user
reference, free-text description, completed flag defaulting to false,
auto-assigned creation and update timestamps. -/
structure Task where
  id : Nat
  user : Nat
  description : String
  completed : Bool
  creation_time : Nat
  updated_at : Nat
deriving DecidableEq, Repr

/-- HTTP outcomes the embedded endpoints distinguish. -/
inductive Response (α : Type) where
  | ok (body : α)
  | created (body : α)
  | noContent
  | badRequest
  | forbidden
  | notFound
deriving DecidableEq, Repr

/-! ### Generic store operations (ORM primary-key lookup and row save) -/

/-- Primary-key lookup in a row list, keyed by the projection f. -/
def findBy {α : Type} (f : α → Nat) (s : List α) (pk : Nat) : Option α :=
  s.find? (fun x => f x == pk)

/-- Saving a row: replace the row holding the same primary key. -/
def saveBy {α : Type} (f : α → Nat) (s : List α) (t : α) : List α :=
  s.map (fun u => if f u == f t then t else u)

theorem findBy_eq_some_of_nodup {α : Type} (f : α → Nat) {s : List α} {t : α} {pk : Nat}
    (hnd : (s.map f).Nodup) (ht : t ∈ s) (hid : f t = pk) :
    findBy f s pk = some t := by
  unfold findBy
  cases h : s.find? (fun x => f x == pk) with
  | none =>
      rw [List.find?_eq_none] at h
      exact absurd (by simpa using hid) (h t ht)
  | some u =>
      have hu : u ∈ s := List.mem_of_find?_eq_some h
      have hup : f u = pk := by simpa using List.find?_some h
      have : u = t := List.inj_on_of_nodup_map hnd hu ht (hup.trans hid.symm)
      rw [this]

theorem findBy_eq_none {α : Type} (f : α → Nat) {s : List α} {pk : Nat}
    (h : ∀ x ∈ s, f x ≠ pk) : findBy f s pk = none := by
  unfold findBy
  rw [List.find?_eq_none]
  intro x hx
  simpa using h x hx

theorem saveBy_map {α : Type} (f : α → Nat) (s : List α) (t : α) :
    (saveBy f s t).map f = s.map f := by
  unfold saveBy
  rw [List.map_map]
  apply List.map_congr_left
  intro u _
  by_cases h : f u = f t
  · simp [h]
  · simp [h]

theorem mem_saveBy {α : Type} (f : α → Nat) {s : List α} {u : α} (t : α)
    (hu : u ∈ s) (h : f u = f t) : t ∈ saveBy f s t := by
  unfold saveBy
  exact List.mem_map.mpr ⟨u, hu, by simp [h]⟩

/-! ### Permissions (src/task_tracker/permissions.py) -/

/-- IsOwner.has_object_permission on a Task: the object has a user
attribute, so the check is obj.user == request.user. -/
def is_owner (principal : Nat) (t : Task) : Bool :=
  t.user == principal

/-- IsOwnerOrStaff.has_object_permission on a User object: staff can do
anything, otherwise fall through to the IsOwner comparison
obj == request.user (model instances compare by primary key). -/
def is_owner_or_staff (principal target : User) : Bool :=
  principal.is_staff || target.id == principal.id

/-! ### Task filters (src/task_tracker/apps/tasks/filters.py) -/

/-- Microseconds in one day; time.max in the source is 23:59:59.999999. -/
def usPerDay : Nat := 86400000000

/-- Timezone-aware start of day for a date, as local microseconds. -/
def startOfDay (d : Nat) : Nat := d * usPerDay

/-- Timezone-aware end of day (datetime.combine with time.max). -/
def endOfDay (d : Nat) : Nat := d * usPerDay + (usPerDay - 1)

/-- DateFilter._get_day_range: the start and end of the given date. -/
def get_day_range (d : Nat) : Nat × Nat := (startOfDay d, endOfDay d)

/-- The creation_time__date lookup: calendar date of a stored instant in
the configured timezone. -/
def localDate (ts : Nat) : Nat := ts / usPerDay

/-- DateFilter.filter_created_on: keep the tasks whose creation_time lies
in the inclusive range given by get_day_range. -/
def filter_created_on (qs : List Task) (d : Nat) : List Task :=
  qs.filter (fun t =>
    decide ((get_day_range d).1 ≤ t.creation_time) &&
    decide (t.creation_time ≤ (get_day_range d).2))

/-- Case-insensitive exact match (iexact lookup). -/
def iexact (v field : String) : Bool :=
  v.toLower == field.toLower

/-- Prefix test on character lists. -/
def charsPrefixOf : List Char → List Char → Bool
  | [], _ => true
  | _ :: _, [] => false
  | a :: as, b :: bs => a == b && charsPrefixOf as bs

/-- Substring test on character lists. -/
def charsInfixOf (need : List Char) : List Char → Bool
  | [] => charsPrefixOf need []
  | b :: bs => charsPrefixOf need (b :: bs) || charsInfixOf need bs

/-- Case-insensitive substring match (icontains lookup). -/
def icontains (v field : String) : Bool :=
  charsInfixOf v.toLower.toList field.toLower.toList

/-- Case-insensitive prefix match (istartswith lookup). -/
def istartswith (v field : String) : Bool :=
  charsPrefixOf v.toLower.toList field.toLower.toList

/-- The query parameters TaskFilter declares (Meta.fields); a missing key
is None. Dates are calendar-day numbers, as parsed by DateFilter. -/
structure TaskFilterParams where
  description : Option String
  description__contains : Option String
  description__startswith : Option String
  description__regex : Option String
  completed : Option Bool
  created_after : Option Nat
  created_before : Option Nat
  created_on : Option Nat
deriving DecidableEq, Repr

/-- One FilterSet slot: apply the filter when its value was supplied. -/
def optFilter {β : Type} (o : Option β) (p : β → Task → Bool) (qs : List Task) : List Task :=
  match o with
  | some v => qs.filter (fun t => p v t)
  | none => qs

/-- TaskFilter.filter_queryset: each declared filter narrows the queryset
in turn; rm is the external case-insensitive regex matcher behind the
iregex lookup, and created_on delegates to filter_created_on. -/
def taskFilterQueryset (rm : String → String → Bool) (ps : TaskFilterParams)
    (qs : List Task) : List Task :=
  let qs1 := optFilter ps.description (fun v t => iexact v t.description) qs
  let qs2 := optFilter ps.description__contains (fun v t => icontains v t.description) qs1
  let qs3 := optFilter ps.description__startswith (fun v t => istartswith v t.description) qs2
  let qs4 := optFilter ps.description__regex (fun v t => rm v t.description) qs3
  let qs5 := optFilter ps.completed (fun v t => t.completed == v) qs4
  let qs6 := optFilter ps.created_after (fun v t => decide (v ≤ localDate t.creation_time)) qs5
  let qs7 := optFilter ps.created_before (fun v t => decide (localDate t.creation_time ≤ v)) qs6
  match ps.created_on with
  | some v => filter_created_on qs7 v
  | none => qs7

/-- Does a supplied optional filter value accept? A missing value
imposes no constraint. -/
def optHolds {β : Type} (o : Option β) (p : β → Bool) : Bool :=
  match o with
  | some v => p v
  | none => true

/-- Conjunction of every supplied filter predicate of TaskFilter, stated
per task; the specification-side characterisation of AND semantics. -/
def suppliedHold (rm : String → String → Bool) (ps : TaskFilterParams) (t : Task) : Bool :=
  optHolds ps.description (fun v => iexact v t.description) &&
  optHolds ps.description__contains (fun v => icontains v t.description) &&
  optHolds ps.description__startswith (fun v => istartswith v t.description) &&
  optHolds ps.description__regex (fun v => rm v t.description) &&
  optHolds ps.completed (fun v => t.completed == v) &&
  optHolds ps.created_after (fun v => decide (v ≤ localDate t.creation_time)) &&
  optHolds ps.created_before (fun v => decide (localDate t.creation_time ≤ v)) &&
  optHolds ps.created_on (fun v =>
    decide (startOfDay v ≤ t.creation_time) && decide (t.creation_time ≤ endOfDay v))

/-- The empty query string: no filter supplied. -/
def noParams : TaskFilterParams :=
  ⟨none, none, none, none, none, none, none, none⟩

/-- Query string carrying only description__contains. -/
def containsParams (s : String) : TaskFilterParams :=
  { noParams with description__contains := some s }

/-- Query string carrying only completed. -/
def completedParams (b : Bool) : TaskFilterParams :=
  { noParams with completed := some b }

/-- Query string carrying description__contains and completed together. -/
def containsCompletedParams (s : String) (b : Bool) : TaskFilterParams :=
  { noParams with description__contains := some s, completed := some b }

/-! ### Task serializers (src/task_tracker/apps/tasks/serializers.py) -/

/-- Task.__str__: the first 50 characters of the description, followed by
three dots when the description is longer than 50 characters. -/
def task_str (t : Task) : String :=
  String.mk (t.description.toList.take 50) ++
    (if 50 < t.description.toList.length then ("...") else (""))

/-- ListTasksSerializer item: id, shortened description, completed,
creation_time. -/
structure TaskListItem where
  id : Nat
  description : String
  completed : Bool
  creation_time : Nat
deriving DecidableEq, Repr

/-- ListTasksSerializer.get_description delegates to Task.__str__. -/
def get_description (t : Task) : String := task_str t

/-- Serialization of one task for the list endpoint. -/
def listTasksSerializer (t : Task) : TaskListItem :=
  ⟨t.id, get_description t, t.completed, t.creation_time⟩

/-- TaskSerializer body: id, full description, completed, creation_time,
updated_at. -/
structure TaskBody where
  id : Nat
  description : String
  completed : Bool
  creation_time : Nat
  updated_at : Nat
deriving DecidableEq, Repr

/-- Serialization of one task for detail, create, update and toggle. -/
def taskSerializer (t : Task) : TaskBody :=
  ⟨t.id, t.description, t.completed, t.creation_time, t.updated_at⟩

/-- A write payload for TaskSerializer: only description is writable;
completed, creation_time and updated_at are read_only_fields, so a
supplied completed value never reaches validated data. -/
structure TaskPayload where
  description : Option String
  completed : Option Bool
deriving DecidableEq, Repr

/-- TaskSerializer on create: description is required and may not be
blank; completed takes the model default false; creation_time and
updated_at are assigned by the system clock. -/
def taskSerializerCreate (payload : TaskPayload) (owner newId now : Nat) : Option Task :=
  match payload.description with
  | none => none
  | some d =>
      if d = "" then none
      else some ⟨newId, owner, d, false, now, now⟩

/-- TaskSerializer on partial update: a supplied description replaces the
old one and may not be blank; completed and creation_time are read-only
and keep their stored values; updated_at is refreshed (auto_now). -/
def taskSerializerUpdate (t : Task) (payload : TaskPayload) (now : Nat) : Option Task :=
  match payload.description with
  | none => some { t with updated_at := now }
  | some d =>
      if d = "" then none
      else some { t with description := d, updated_at := now }

/-! ### Task model method and views (src/task_tracker/apps/tasks) -/

/-- Task.toggle_completion: negate completed and save (auto_now refreshes
updated_at). -/
def toggle_completion (t : Task) (now : Nat) : Task :=
  { t with completed := !t.completed, updated_at := now }

/-- Every task view scopes its queryset to the authenticated user:
Task.objects.filter(user=self.request.user). -/
def ownedTasks (store : List Task) (principal : Nat) : List Task :=
  store.filter (fun t => t.user == principal)

/-- get_object of the task detail, update, toggle and delete views: a
primary-key lookup inside the owner-scoped queryset; a miss raises
NotFound. -/
def taskGetObject (store : List Task) (principal pk : Nat) : Option Task :=
  findBy Task.id (ownedTasks store principal) pk

/-- TaskListView.list: owner-scoped queryset, narrowed by TaskFilter,
serialized with ListTasksSerializer. -/
def taskList (rm : String → String → Bool) (store : List Task) (principal : Nat)
    (ps : TaskFilterParams) : List TaskListItem :=
  (taskFilterQueryset rm ps (ownedTasks store principal)).map listTasksSerializer

/-- TaskCreateView: validate and save with owner = principal. -/
def taskCreate (store : List Task) (principal : Nat) (payload : TaskPayload)
    (newId now : Nat) : Response TaskBody × List Task :=
  match taskSerializerCreate payload principal newId now with
  | some t => (Response.created (taskSerializer t), store ++ [t])
  | none => (Response.badRequest, store)

/-- TaskDetailView.retrieve. -/
def taskDetail (store : List Task) (principal pk : Nat) : Response TaskBody :=
  match taskGetObject store principal pk with
  | some t => Response.ok (taskSerializer t)
  | none => Response.notFound

/-- TaskUpdateDescriptionView.update: get_object, then serializer
validation and save. -/
def taskUpdateDescription (store : List Task) (principal pk : Nat)
    (payload : TaskPayload) (now : Nat) : Response TaskBody × List Task :=
  match taskGetObject store principal pk with
  | none => (Response.notFound, store)
  | some t =>
      match taskSerializerUpdate t payload now with
      | some t2 => (Response.ok (taskSerializer t2), saveBy Task.id store t2)
      | none => (Response.badRequest, store)

/-- TaskToggleCompletionView.update: get_object, toggle_completion, save,
return the full serialized task. -/
def taskToggle (store : List Task) (principal pk now : Nat) :
    Response TaskBody × List Task :=
  match taskGetObject store principal pk with
  | none => (Response.notFound, store)
  | some t =>
      let t2 := toggle_completion t now
      (Response.ok (taskSerializer t2), saveBy Task.id store t2)

/-- TaskDeleteView.destroy: get_object, hard delete, no content. -/
def taskDelete (store : List Task) (principal pk : Nat) :
    Response TaskBody × List Task :=
  match taskGetObject store principal pk with
  | none => (Response.notFound, store)
  | some t => (Response.noContent, store.filter (fun u => !(u.id == t.id)))

/-! ### User serializers (src/task_tracker/apps/users/serializers.py) -/

/-- A registration payload for UserCreateSerializer: username and
password are required; email, first_name, last_name are optional model
fields; is_active is an exposed BooleanField with default True. The role
flags are not declared, so supplied values are dropped during
validation. -/
structure RegistrationPayload where
  username : String
  email : Option String
  first_name : Option String
  last_name : Option String
  password : String
  is_active : Option Bool
deriving DecidableEq, Repr

/-- UserCreateSerializer.create via the model-serializer default path:
reject a password failing the external strength policy validPw, then
create the row from validated data; is_staff and is_superuser take the
model defaults false; is_active defaults to true when not supplied. -/
def userCreateSerializer (validPw : String → Bool) (payload : RegistrationPayload)
    (newId : Nat) : Option User :=
  if validPw payload.password then
    some ⟨newId, payload.username, payload.email.getD (""), payload.first_name.getD (""),
          payload.last_name.getD (""), payload.password, false, false,
          payload.is_active.getD true⟩
  else none

/-- The fields of the registration response body (serializer data of
UserCreateSerializer): every declared field except the write_only
password. -/
def registrationResponseFields (u : User) : List (String × String) :=
  [("username", u.username), ("email", u.email), ("first_name", u.first_name),
   ("last_name", u.last_name), ("is_active", if u.is_active then ("true") else ("false"))]

/-- UserRegistrationViewSet.create: public endpoint; validation failure
is a 400, success persists the new row and returns the serializer
data. -/
def userRegister (validPw : String → Bool) (store : List User)
    (payload : RegistrationPayload) (newId : Nat) :
    Response (List (String × String)) × List User :=
  match userCreateSerializer validPw payload newId with
  | some u => (Response.created (registrationResponseFields u), store ++ [u])
  | none => (Response.badRequest, store)

/-- An update payload for UserUpdateSerializer. Only email, first_name,
last_name and password are declared fields; username and the role flags
are listed here to record that a client may supply them, but validation
drops them before update runs. -/
structure UserUpdatePayload where
  email : Option String
  first_name : Option String
  last_name : Option String
  password : Option String
  username : Option String
  is_staff : Option Bool
  is_superuser : Option Bool
deriving DecidableEq, Repr

/-- Validation of UserUpdateSerializer input: a full (non-partial) update
requires the required declared field password; a supplied password must
satisfy the external strength policy validPw. -/
def userUpdateValidate (isPartial : Bool) (validPw : String → Bool)
    (p : UserUpdatePayload) : Bool :=
  (isPartial || p.password.isSome) &&
  (match p.password with
   | some pw => validPw pw
   | none => true)

/-- UserUpdateSerializer.update: pop password from validated data, set
the remaining validated attributes, hash and set the password when
present, save. Only the declared fields ever reach validated data. -/
def userUpdateSerializer (hash : String → String) (u : User)
    (p : UserUpdatePayload) : User :=
  let u1 := match p.email with
    | some v => { u with email := v }
    | none => u
  let u2 := match p.first_name with
    | some v => { u1 with first_name := v }
    | none => u1
  let u3 := match p.last_name with
    | some v => { u2 with last_name := v }
    | none => u2
  match p.password with
  | some pw => { u3 with password := hash pw }
  | none => u3

/-! ### User views (src/task_tracker/apps/users/views.py) -/

/-- Primary-key lookup in the user table. -/
def findUser (store : List User) (pk : Nat) : Option User :=
  findBy User.id store pk

/-- UserProfileViewSet.retrieve: an explicit guard raises PermissionDenied
for a non-staff principal whose id differs from the requested pk, before
the object lookup; then the primary-key lookup can still miss. -/
def profileRetrieve (store : List User) (principal : User) (pk : Nat) : Response User :=
  if !principal.is_staff && principal.id != pk then Response.forbidden
  else
    match findUser store pk with
    | some u => Response.ok u
    | none => Response.notFound

/-- UserProfileViewSet.update and partial_update: get_object performs the
lookup (404 on a miss) and then checks IsOwnerOrStaff (403 on denial);
on success the shared UserUpdateSerializer validates and saves. -/
def profileUpdate (hash : String → String) (validPw : String → Bool)
    (isPartial : Bool) (store : List User) (principal : User) (pk : Nat)
    (payload : UserUpdatePayload) : Response User × List User :=
  match findUser store pk with
  | none => (Response.notFound, store)
  | some target =>
      if !is_owner_or_staff principal target then (Response.forbidden, store)
      else if !userUpdateValidate isPartial validPw payload then (Response.badRequest, store)
      else
        let u2 := userUpdateSerializer hash target payload
        (Response.ok u2, saveBy User.id store u2)

/-- UserProfileViewSet.destroy: get_object (404 on a miss, 403 on an
IsOwnerOrStaff denial), then hard delete with no content. -/
def profileDestroy (store : List User) (principal : User) (pk : Nat) :
    Response User × List User :=
  match findUser store pk with
  | none => (Response.notFound, store)
  | some target =>
      if !is_owner_or_staff principal target then (Response.forbidden, store)
      else (Response.noContent, store.filter (fun u => !(u.id == target.id)))

/-- UserListViewSet.get_queryset: staff or superusers see every user,
anyone else sees only the row with their own id. -/
def userListQueryset (store : List User) (principal : User) : List User :=
  if principal.is_staff || principal.is_superuser then store
  else store.filter (fun u => u.id == principal.id)

/-! ### Concrete rows and oracles used to exercise the theorems -/

/-- A sample task owned by user 7. -/
def demoTask : Task := ⟨1, 7, "Buy milk", false, 0, 0⟩

/-- A task created at 23:59:59.000000 local time on day 0. -/
def lateTask : Task := ⟨1, 7, "late", false, 86399000000, 0⟩

/-- A task created at 00:00:01.000000 local time on day 1. -/
def nextDayTask : Task := ⟨2, 7, "next", false, 86401000000, 0⟩

/-- A task whose description runs to 60 characters. -/
def longTask : Task :=
  ⟨3, 7, "aaaaaaaaaabbbbbbbbbbccccccccccddddddddddeeeeeeeeeeffffffffff", false, 0, 0⟩

/-- A regular (non-staff, non-superuser) user. -/
def alice : User := ⟨1, "alice", "alice@example.com", "Alice", "A", "pw1", false, false, true⟩

/-- A second regular user. -/
def bob : User := ⟨2, "bob", "bob@example.com", "Bob", "B", "pw2", false, false, true⟩

/-- A staff user. -/
def staffUser : User := ⟨3, "carol", "carol@example.com", "Carol", "C", "pw3", true, false, true⟩

/-- A concrete stand-in for the external password hasher. -/
def demoHash (s : String) : String := "hashed:" ++ s

/-- A concrete stand-in for the external password-strength policy. -/
def demoValidPw (s : String) : Bool := decide (8 ≤ s.length)

/-! ### Store lemmas shared by the access-control theorems -/

theorem mem_ownedTasks {store : List Task} {p : Nat} {t : Task} :
    t ∈ ownedTasks store p ↔ t ∈ store ∧ t.user = p := by
  simp [ownedTasks, List.mem_filter]

theorem ownedTasks_nodup {store : List Task} {p : Nat}
    (hnd : (store.map Task.id).Nodup) :
    ((ownedTasks store p).map Task.id).Nodup := by
  have hsub : List.Sublist ((ownedTasks store p).map Task.id) (store.map Task.id) :=
    (List.filter_sublist store).map Task.id
  exact hnd.sublist hsub

theorem taskGetObject_eq_some {store : List Task} {p pk : Nat} {t : Task}
    (hnd : (store.map Task.id).Nodup) (ht : t ∈ store)
    (hid : t.id = pk) (hu : t.user = p) :
    taskGetObject store p pk = some t :=
  findBy_eq_some_of_nodup Task.id (ownedTasks_nodup hnd)
    (mem_ownedTasks.mpr ⟨ht, hu⟩) hid

theorem taskGetObject_eq_none_of_nonowner {store : List Task} {p pk : Nat} {t : Task}
    (hnd : (store.map Task.id).Nodup) (ht : t ∈ store)
    (hid : t.id = pk) (hu : t.user ≠ p) :
    taskGetObject store p pk = none := by
  apply findBy_eq_none
  intro x hx hxid
  have hxs := mem_ownedTasks.mp hx
  have : x = t := List.inj_on_of_nodup_map hnd hxs.1 ht (hxid.trans hid.symm)
  exact hu (this ▸ hxs.2)

theorem taskGetObject_eq_none_of_fresh {store : List Task} {p pk : Nat}
    (hfresh : ∀ u ∈ store, u.id ≠ pk) :
    taskGetObject store p pk = none := by
  apply findBy_eq_none
  intro x hx
  exact hfresh x (mem_ownedTasks.mp hx).1

theorem userUpdateSerializer_frame (hash : String → String) (u : User)
    (p : UserUpdatePayload) :
    (userUpdateSerializer hash u p).id = u.id ∧
    (userUpdateSerializer hash u p).username = u.username ∧
    (userUpdateSerializer hash u p).is_staff = u.is_staff ∧
    (userUpdateSerializer hash u p).is_superuser = u.is_superuser ∧
    (userUpdateSerializer hash u p).is_active = u.is_active := by
  unfold userUpdateSerializer
  cases p.email <;> cases p.first_name <;> cases p.last_name <;>
    cases p.password <;> simp

theorem filter_id_eq_singleton {s : List User} {p : User}
    (hnd : (s.map User.id).Nodup) (hp : p ∈ s) :
    s.filter (fun u => u.id == p.id) = [p] := by
  induction s with
  | nil => cases hp
  | cons a l ih =>
      rw [List.map_cons, List.nodup_cons] at hnd
      rcases List.mem_cons.mp hp with h | h
      · subst h
        have hnil : l.filter (fun u => u.id == p.id) = [] := by
          rw [List.filter_eq_nil_iff]
          intro u hu
          simp only [beq_iff_eq]
          intro hid
          exact hnd.1 (List.mem_map.mpr ⟨u, hu, hid⟩)
        simp [List.filter_cons, hnil]
      · have hne : a.id ≠ p.id := by
          intro hid
          exact hnd.1 (List.mem_map.mpr ⟨p, h, hid.symm⟩)
        simp only [List.filter_cons, beq_iff_eq, hne, if_false]
        exact ih hnd.2 h

theorem mem_optFilter {β : Type} (o : Option β) (p : β → Task → Bool)
    (qs : List Task) (t : Task) :
    t ∈ optFilter o p qs ↔ t ∈ qs ∧ optHolds o (fun v => p v t) = true := by
  cases o <;> simp [optFilter, optHolds, List.mem_filter]

theorem mem_filter_created_on (qs : List Task) (d : Nat) (t : Task) :
    t ∈ filter_created_on qs d ↔
      t ∈ qs ∧ startOfDay d ≤ t.creation_time ∧ t.creation_time ≤ endOfDay d := by
  simp [filter_created_on, List.mem_filter, get_day_range]

/-! ### Claim theorems -/

/-- C1: for an authenticated principal p and a task t it does not own, a
GET, PATCH (description or toggle) or DELETE addressed to the id of t
returns NotFound, equal in shape to the response for a nonexistent id,
and never Forbidden. -/
theorem task_nonowner_gets_notFound
    (store : List Task) (p pk badId : Nat) (t : Task) (payload : TaskPayload)
    (now : Nat)
    (hnd : (store.map Task.id).Nodup)
    (ht : t ∈ store) (hid : t.id = pk) (hu : t.user ≠ p)
    (hbad : ∀ u ∈ store, u.id ≠ badId) :
    taskDetail store p pk = Response.notFound ∧
    taskDetail store p pk = taskDetail store p badId ∧
    taskUpdateDescription store p pk payload now = (Response.notFound, store) ∧
    taskUpdateDescription store p pk payload now
      = taskUpdateDescription store p badId payload now ∧
    taskToggle store p pk now = (Response.notFound, store) ∧
    taskToggle store p pk now = taskToggle store p badId now ∧
    taskDelete store p pk = (Response.notFound, store) ∧
    taskDelete store p pk = taskDelete store p badId ∧
    taskDetail store p pk ≠ Response.forbidden := by
  have h1 : taskGetObject store p pk = none :=
    taskGetObject_eq_none_of_nonowner hnd ht hid hu
  have h2 : taskGetObject store p badId = none :=
    taskGetObject_eq_none_of_fresh hbad
  refine ⟨?_, ?_, ?_, ?_, ?_, ?_, ?_, ?_, ?_⟩ <;>
    simp [taskDetail, taskUpdateDescription, taskToggle, taskDelete, h1, h2]

/-- Exercises C1 on a one-row table: user 9 probing the task of user 7
gets the same NotFound as for an id that is absent altogether. -/
theorem task_nonowner_gets_notFound_witness :
    taskDetail [demoTask] 9 1 = Response.notFound ∧
    taskDetail [demoTask] 9 1 = taskDetail [demoTask] 9 2 ∧
    taskToggle [demoTask] 9 1 5 = (Response.notFound, [demoTask]) ∧
    taskDelete [demoTask] 9 1 = (Response.notFound, [demoTask]) := by
  have h := task_nonowner_gets_notFound [demoTask] 9 1 2 demoTask ⟨some ("x"), none⟩ 5
    (by decide) (by decide) (by decide) (by decide) (by decide)
  exact ⟨h.1, h.2.1, h.2.2.2.2.1, h.2.2.2.2.2.2.1⟩

/-- C8: the toggle endpoint flips completed, saves the row and answers
with the full serialized task; applying it twice restores the original
completed value. -/
theorem toggle_twice_restores
    (store : List Task) (p pk n1 n2 : Nat) (t : Task)
    (hnd : (store.map Task.id).Nodup)
    (ht : t ∈ store) (hid : t.id = pk) (hu : t.user = p) :
    taskToggle store p pk n1
      = (Response.ok (taskSerializer (toggle_completion t n1)),
         saveBy Task.id store (toggle_completion t n1)) ∧
    (toggle_completion t n1).completed = !t.completed ∧
    taskToggle (saveBy Task.id store (toggle_completion t n1)) p pk n2
      = (Response.ok (taskSerializer (toggle_completion (toggle_completion t n1) n2)),
         saveBy Task.id (saveBy Task.id store (toggle_completion t n1))
           (toggle_completion (toggle_completion t n1) n2)) ∧
    (toggle_completion (toggle_completion t n1) n2).completed = t.completed ∧
    findBy Task.id
        (saveBy Task.id (saveBy Task.id store (toggle_completion t n1))
          (toggle_completion (toggle_completion t n1) n2)) pk
      = some (toggle_completion (toggle_completion t n1) n2) := by
  have h1 : taskGetObject store p pk = some t := taskGetObject_eq_some hnd ht hid hu
  have ht1 : toggle_completion t n1 ∈ saveBy Task.id store (toggle_completion t n1) :=
    mem_saveBy Task.id (toggle_completion t n1) ht rfl
  have hnd1 : ((saveBy Task.id store (toggle_completion t n1)).map Task.id).Nodup := by
    rw [saveBy_map]; exact hnd
  have h2 : taskGetObject (saveBy Task.id store (toggle_completion t n1)) p pk
      = some (toggle_completion t n1) :=
    taskGetObject_eq_some hnd1 ht1 hid hu
  have ht2 : toggle_completion (toggle_completion t n1) n2 ∈
      saveBy Task.id (saveBy Task.id store (toggle_completion t n1))
        (toggle_completion (toggle_completion t n1) n2) :=
    mem_saveBy Task.id (toggle_completion (toggle_completion t n1) n2) ht1 rfl
  have hnd2 : ((saveBy Task.id (saveBy Task.id store (toggle_completion t n1))
      (toggle_completion (toggle_completion t n1) n2)).map Task.id).Nodup := by
    rw [saveBy_map, saveBy_map]; exact hnd
  refine ⟨?_, ?_, ?_, ?_, ?_⟩
  · simp [taskToggle, h1]
  · simp [toggle_completion]
  · simp [taskToggle, h2]
  · simp [toggle_completion]
  · exact findBy_eq_some_of_nodup Task.id hnd2 ht2 hid

/-- Exercises C8: toggling the sample task twice brings completed back to
false and the view responds with the full representation each time. -/
theorem toggle_twice_restores_witness :
    taskToggle [demoTask] 7 1 4
      = (Response.ok (taskSerializer (toggle_completion demoTask 4)),
         saveBy Task.id [demoTask] (toggle_completion demoTask 4)) ∧
    (toggle_completion demoTask 4).completed = !demoTask.completed ∧
    (toggle_completion (toggle_completion demoTask 4) 9).completed
      = demoTask.completed := by
  have h := toggle_twice_restores [demoTask] 7 1 4 9 demoTask
    (by decide) (by decide) (by decide) (by decide)
  exact ⟨h.1, h.2.1, h.2.2.2.1⟩

/-- A payload attempting privilege escalation. -/
def escalationPayload : UserUpdatePayload :=
  ⟨none, none, none, none, none, some true, some true⟩

/-- A payload supplying no field at all. -/
def emptyUpdatePayload : UserUpdatePayload :=
  ⟨none, none, none, none, none, none, none⟩

/-- C2: a non-staff user updating the own profile with is_staff or
is_superuser set in the payload gets a successful response, yet the
persisted row keeps is_staff and is_superuser false and the username
unchanged; only the declared fields can ever change. -/
theorem self_update_cannot_escalate
    (hash : String → String) (validPw : String → Bool) (isPartial : Bool)
    (store : List User) (u : User) (payload : UserUpdatePayload)
    (hnd : (store.map User.id).Nodup) (hu : u ∈ store)
    (hstaff : u.is_staff = false) (hsup : u.is_superuser = false)
    (hesc : payload.is_staff = some true ∨ payload.is_superuser = some true)
    (hval : userUpdateValidate isPartial validPw payload = true) :
    profileUpdate hash validPw isPartial store u u.id payload
      = (Response.ok (userUpdateSerializer hash u payload),
         saveBy User.id store (userUpdateSerializer hash u payload)) ∧
    (userUpdateSerializer hash u payload).is_staff = false ∧
    (userUpdateSerializer hash u payload).is_superuser = false ∧
    (userUpdateSerializer hash u payload).username = u.username ∧
    (userUpdateSerializer hash u payload).id = u.id ∧
    findUser (saveBy User.id store (userUpdateSerializer hash u payload)) u.id
      = some (userUpdateSerializer hash u payload) := by
  have hframe := userUpdateSerializer_frame hash u payload
  have hfind : findUser store u.id = some u :=
    findBy_eq_some_of_nodup User.id hnd hu rfl
  have hperm : is_owner_or_staff u u = true := by simp [is_owner_or_staff]
  have hmem2 : userUpdateSerializer hash u payload ∈
      saveBy User.id store (userUpdateSerializer hash u payload) :=
    mem_saveBy User.id (userUpdateSerializer hash u payload) hu hframe.1.symm
  have hnd2 : ((saveBy User.id store (userUpdateSerializer hash u payload)).map
      User.id).Nodup := by
    rw [saveBy_map]; exact hnd
  refine ⟨?_, ?_, ?_, ?_, ?_, ?_⟩
  · simp [profileUpdate, hfind, hperm, hval]
  · rw [hframe.2.2.1, hstaff]
  · rw [hframe.2.2.2.1, hsup]
  · exact hframe.2.1
  · exact hframe.1
  · exact findBy_eq_some_of_nodup User.id hnd2 hmem2 hframe.1

/-- Exercises C2: alice patches her own profile with both role flags set
to true; the request succeeds and the saved row still carries false. -/
theorem self_update_cannot_escalate_witness :
    profileUpdate demoHash demoValidPw true [alice] alice 1 escalationPayload
      = (Response.ok (userUpdateSerializer demoHash alice escalationPayload),
         saveBy User.id [alice] (userUpdateSerializer demoHash alice escalationPayload)) ∧
    (userUpdateSerializer demoHash alice escalationPayload).is_staff = false ∧
    (userUpdateSerializer demoHash alice escalationPayload).is_superuser = false ∧
    (userUpdateSerializer demoHash alice escalationPayload).username = alice.username := by
  have h := self_update_cannot_escalate demoHash demoValidPw true [alice] alice
    escalationPayload (by decide) (by decide) (by decide) (by decide)
    (Or.inl rfl) (by decide)
  exact ⟨h.1, h.2.1, h.2.2.1, h.2.2.2.1⟩

/-- C3: the user-list base collection is the whole table for staff or
superusers and exactly the singleton of the principal otherwise. -/
theorem user_list_visibility
    (store : List User) (principal : User)
    (hnd : (store.map User.id).Nodup) (hmem : principal ∈ store) :
    ((principal.is_staff = true ∨ principal.is_superuser = true) →
      userListQueryset store principal = store) ∧
    (principal.is_staff = false → principal.is_superuser = false →
      userListQueryset store principal = [principal] ∧
      (userListQueryset store principal).length = 1) := by
  constructor
  · intro h
    rcases h with h | h <;> simp [userListQueryset, h]
  · intro h1 h2
    have hq : userListQueryset store principal
        = store.filter (fun u => u.id == principal.id) := by
      unfold userListQueryset
      rw [h1, h2]
      rfl
    rw [hq, filter_id_eq_singleton hnd hmem]
    exact ⟨rfl, rfl⟩

/-- Exercises C3: the staff user sees both rows; alice sees only herself
with count 1. -/
theorem user_list_visibility_witness :
    userListQueryset [alice, staffUser] staffUser = [alice, staffUser] ∧
    userListQueryset [alice, bob] alice = [alice] ∧
    (userListQueryset [alice, bob] alice).length = 1 := by
  have h1 := user_list_visibility [alice, staffUser] staffUser (by decide) (by decide)
  have h2 := user_list_visibility [alice, bob] alice (by decide) (by decide)
  exact ⟨h1.1 (Or.inl rfl), (h2.2 rfl rfl).1, (h2.2 rfl rfl).2⟩

/-- C4: retrieve, update, partial update and delete on a stored profile
are allowed exactly when the principal is staff or is the target; a
denial answers Forbidden, never NotFound. -/
theorem profile_access_policy
    (hash : String → String) (validPw : String → Bool) (isPartial : Bool)
    (store : List User) (principal u : User) (pk : Nat)
    (payload : UserUpdatePayload)
    (hnd : (store.map User.id).Nodup) (hu : u ∈ store) (hid : u.id = pk)
    (hval : userUpdateValidate isPartial validPw payload = true) :
    ((principal.is_staff = true ∨ principal.id = u.id) →
        profileRetrieve store principal pk = Response.ok u ∧
        profileUpdate hash validPw isPartial store principal pk payload
          = (Response.ok (userUpdateSerializer hash u payload),
             saveBy User.id store (userUpdateSerializer hash u payload)) ∧
        profileDestroy store principal pk
          = (Response.noContent, store.filter (fun x => !(x.id == u.id)))) ∧
    (principal.is_staff = false → principal.id ≠ u.id →
        profileRetrieve store principal pk = Response.forbidden ∧
        (profileUpdate hash validPw isPartial store principal pk payload).1
          = Response.forbidden ∧
        (profileDestroy store principal pk).1 = Response.forbidden ∧
        profileRetrieve store principal pk ≠ Response.notFound) := by
  have hfind : findUser store pk = some u :=
    findBy_eq_some_of_nodup User.id hnd hu hid
  constructor
  · intro hallow
    have hperm : is_owner_or_staff principal u = true := by
      rcases hallow with h | h
      · simp [is_owner_or_staff, h]
      · simp [is_owner_or_staff, h]
    have hguard : (!principal.is_staff && principal.id != pk) = false := by
      rcases hallow with h | h
      · simp [h]
      · simp [h, hid]
    refine ⟨?_, ?_, ?_⟩
    · simp [profileRetrieve, hguard, hfind]
    · simp [profileUpdate, hfind, hperm, hval]
    · simp [profileDestroy, hfind, hperm]
  · intro h1 h2
    have hne : principal.id ≠ pk := fun hp => h2 (hp.trans hid.symm)
    have hguard : (!principal.is_staff && principal.id != pk) = true := by
      simp [h1, hne]
    have hperm : is_owner_or_staff principal u = false := by
      simp [is_owner_or_staff, h1]
      intro hp
      exact h2 hp.symm
    refine ⟨?_, ?_, ?_, ?_⟩
    · simp [profileRetrieve, hguard]
    · simp [profileUpdate, hfind, hperm]
    · simp [profileDestroy, hfind, hperm]
    · simp [profileRetrieve, hguard]

/-- Exercises C4: bob probing the profile of alice is Forbidden, not
NotFound, while the staff user retrieves it. -/
theorem profile_access_policy_witness :
    profileRetrieve [alice, bob] bob 1 = Response.forbidden ∧
    (profileDestroy [alice, bob] bob 1).1 = Response.forbidden ∧
    profileRetrieve [alice, bob] bob 1 ≠ Response.notFound ∧
    profileRetrieve [alice, bob] staffUser 1 = Response.ok alice := by
  have hdenied := profile_access_policy demoHash demoValidPw true [alice, bob] bob
    alice 1 emptyUpdatePayload (by decide) (by decide) rfl (by decide)
  have hstaff := profile_access_policy demoHash demoValidPw true [alice, bob] staffUser
    alice 1 emptyUpdatePayload (by decide) (by decide) rfl (by decide)
  have hd := hdenied.2 rfl (by decide)
  exact ⟨hd.1, hd.2.2.1, hd.2.2.2, (hstaff.1 (Or.inl rfl)).1⟩

/-- C5: created_on keeps exactly the tasks whose creation instant lies in
the closed local-time interval of the given date; 23:59:59 on the date is
kept, 00:00:01 on the next day is dropped. -/
theorem created_on_inclusive_day_bounds (qs : List Task) (d : Nat) :
    (∀ t, t ∈ filter_created_on qs d ↔
        t ∈ qs ∧ startOfDay d ≤ t.creation_time ∧ t.creation_time ≤ endOfDay d) ∧
    (∀ t ∈ qs, t.creation_time = d * usPerDay + 86399000000 →
        t ∈ filter_created_on qs d) ∧
    (∀ t ∈ qs, t.creation_time = (d + 1) * usPerDay + 1000000 →
        t ∉ filter_created_on qs d) := by
  refine ⟨fun t => mem_filter_created_on qs d t, ?_, ?_⟩
  · intro t ht hc
    refine (mem_filter_created_on qs d t).mpr ⟨ht, ?_, ?_⟩
    · rw [hc]
      simp only [startOfDay, usPerDay]
      omega
    · rw [hc]
      simp only [endOfDay, usPerDay]
      omega
  · intro t ht hc hmem
    have h := (mem_filter_created_on qs d t).mp hmem
    rw [hc] at h
    simp only [startOfDay, endOfDay, usPerDay] at h
    omega

/-- Exercises C5 at day 0: the 23:59:59 task passes the filter, the
00:00:01 task of the next day does not. -/
theorem created_on_inclusive_day_bounds_witness :
    lateTask ∈ filter_created_on [lateTask, nextDayTask] 0 ∧
    nextDayTask ∉ filter_created_on [lateTask, nextDayTask] 0 := by
  have h := created_on_inclusive_day_bounds [lateTask, nextDayTask] 0
  exact ⟨h.2.1 lateTask (by decide) (by decide),
         h.2.2 nextDayTask (by decide) (by decide)⟩

/-- C6: the task filter narrows a collection to exactly the elements
satisfying every supplied filter predicate (AND semantics); the empty
query is the identity, and combining description__contains with completed
yields precisely the intersection of the two single-filter results. -/
theorem filters_compose_with_and (rm : String → String → Bool) (qs : List Task) :
    (∀ ps t, t ∈ taskFilterQueryset rm ps qs ↔
        t ∈ qs ∧ suppliedHold rm ps t = true) ∧
    taskFilterQueryset rm noParams qs = qs ∧
    (∀ s b t, t ∈ taskFilterQueryset rm (containsCompletedParams s b) qs ↔
        t ∈ taskFilterQueryset rm (containsParams s) qs ∧
        t ∈ taskFilterQueryset rm (completedParams b) qs) := by
  have hmem : ∀ ps t, t ∈ taskFilterQueryset rm ps qs ↔
      t ∈ qs ∧ suppliedHold rm ps t = true := by
    intro ps t
    cases hco : ps.created_on with
    | none =>
        unfold taskFilterQueryset
        rw [hco]
        simp only [mem_optFilter, suppliedHold, hco, optHolds, Bool.and_eq_true,
          decide_eq_true_eq]
        tauto
    | some v =>
        unfold taskFilterQueryset
        rw [hco]
        simp only [mem_filter_created_on, mem_optFilter, suppliedHold, hco, optHolds,
          Bool.and_eq_true, decide_eq_true_eq]
        tauto
  refine ⟨hmem, rfl, ?_⟩
  intro s b t
  rw [hmem, hmem, hmem]
  simp only [suppliedHold, containsCompletedParams, containsParams, completedParams,
    noParams, optHolds, Bool.and_eq_true]
  tauto

/-- C7: the primary task serializer treats completed, creation_time and
updated_at as read-only: a successful create yields completed false
whatever the payload supplied, and a description update leaves completed,
creation_time, owner and id untouched. -/
theorem task_serializer_read_only_fields
    (payload : TaskPayload) (owner newId now : Nat) (t t2 : Task) :
    (taskSerializerCreate payload owner newId now = some t2 →
        t2.completed = false ∧ t2.user = owner ∧ t2.creation_time = now) ∧
    (taskSerializerUpdate t payload now = some t2 →
        t2.completed = t.completed ∧ t2.creation_time = t.creation_time ∧
        t2.user = t.user ∧ t2.id = t.id) := by
  constructor
  · intro h
    unfold taskSerializerCreate at h
    split at h
    · exact Option.noConfusion h
    · split at h
      · exact Option.noConfusion h
      · injection h with h2
        subst h2
        exact ⟨rfl, rfl, rfl⟩
  · intro h
    unfold taskSerializerUpdate at h
    split at h
    · injection h with h2
      subst h2
      exact ⟨rfl, rfl, rfl, rfl⟩
    · split at h
      · exact Option.noConfusion h
      · injection h with h2
        subst h2
        exact ⟨rfl, rfl, rfl, rfl⟩

/-- A create payload that also supplies completed = true. -/
def buyMilkPayload : TaskPayload := ⟨some ("Buy milk"), some true⟩

/-- A description-update payload that also supplies completed = true. -/
def walkDogPayload : TaskPayload := ⟨some ("Walk dog"), some true⟩

/-- Exercises C7: creating with completed supplied as true still stores
false, and updating the description of the sample task keeps completed. -/
theorem task_serializer_read_only_fields_witness :
    taskSerializerCreate buyMilkPayload 7 1 5 = some (Task.mk 1 7 ("Buy milk") false 5 5) ∧
    ((Task.mk 1 7 ("Buy milk") false 5 5).completed = false ∧
     (Task.mk 1 7 ("Buy milk") false 5 5).user = 7 ∧
     (Task.mk 1 7 ("Buy milk") false 5 5).creation_time = 5) ∧
    ((Task.mk 1 7 ("Walk dog") false 0 9).completed = demoTask.completed ∧
     (Task.mk 1 7 ("Walk dog") false 0 9).creation_time = demoTask.creation_time ∧
     (Task.mk 1 7 ("Walk dog") false 0 9).user = demoTask.user ∧
     (Task.mk 1 7 ("Walk dog") false 0 9).id = demoTask.id) :=
  ⟨by decide,
   (task_serializer_read_only_fields buyMilkPayload 7 1 5 demoTask
      (Task.mk 1 7 ("Buy milk") false 5 5)).1 (by decide),
   (task_serializer_read_only_fields walkDogPayload 7 1 9 demoTask
      (Task.mk 1 7 ("Walk dog") false 0 9)).2 (by decide)⟩

/-- A registration payload that explicitly disables the account. -/
def inactiveRegPayload : RegistrationPayload :=
  ⟨("eve"), none, none, none, ("StrongPass123"), some false⟩

/-- A registration payload that leaves is_active unsupplied. -/
def activeRegPayload : RegistrationPayload :=
  ⟨("dave"), none, none, none, ("StrongPass123"), none⟩

/-- The row created from activeRegPayload. -/
def defaultsUser : User :=
  ⟨1, ("dave"), (""), (""), (""), ("StrongPass123"), false, false, true⟩

/-- The row created from inactiveRegPayload. -/
def inactiveUser : User :=
  ⟨1, ("eve"), (""), (""), (""), ("StrongPass123"), false, false, false⟩

/-- C9 counterexample: registration exposes is_active as a writable field
with default true, so a payload supplying is_active = false succeeds and
persists an inactive user, refuting that every successful registration
creates an active user. -/
theorem registration_claim_fails_on_inactive_payload :
    (userRegister demoValidPw [] inactiveRegPayload 1).2 = [inactiveUser] ∧
    inactiveUser.is_active = false ∧
    (userRegister demoValidPw [] inactiveRegPayload 1).1
      = Response.created (registrationResponseFields inactiveUser) := by
  decide

/-- C9 amended: every successful public registration persists a user with
is_staff and is_superuser false; is_active is true whenever the payload
does not supply it; and the response body never carries a password
field. -/
theorem registration_defaults
    (validPw : String → Bool) (store : List User) (payload : RegistrationPayload)
    (newId : Nat) (u : User)
    (h : userCreateSerializer validPw payload newId = some u) :
    u.is_staff = false ∧ u.is_superuser = false ∧
    (payload.is_active = none → u.is_active = true) ∧
    (∀ v, (("password"), v) ∉ registrationResponseFields u) ∧
    userRegister validPw store payload newId
      = (Response.created (registrationResponseFields u), store ++ [u]) := by
  have hreg : userRegister validPw store payload newId
      = (Response.created (registrationResponseFields u), store ++ [u]) := by
    unfold userRegister
    rw [h]
  have hu : u = ⟨newId, payload.username, payload.email.getD (""),
      payload.first_name.getD (""), payload.last_name.getD (""), payload.password,
      false, false, payload.is_active.getD true⟩ := by
    unfold userCreateSerializer at h
    split at h
    · injection h with h2
      exact h2.symm
    · exact Option.noConfusion h
  subst hu
  refine ⟨rfl, rfl, ?_, ?_, hreg⟩
  · intro hn
    show (payload.is_active.getD true) = true
    rw [hn]
    rfl
  · intro v hv
    simp only [registrationResponseFields, List.mem_cons, List.not_mem_nil, or_false,
      Prod.mk.injEq] at hv
    rcases hv with ⟨h1, _⟩ | ⟨h1, _⟩ | ⟨h1, _⟩ | ⟨h1, _⟩ | ⟨h1, _⟩ <;>
      exact absurd h1 (by decide)

/-- Exercises the amended C9: registering dave with no is_active in the
payload yields an active, unprivileged row and no password in the
response fields. -/
theorem registration_defaults_witness :
    defaultsUser.is_staff = false ∧
    defaultsUser.is_superuser = false ∧
    defaultsUser.is_active = true ∧
    (("password"), ("StrongPass123")) ∉ registrationResponseFields defaultsUser := by
  have h := registration_defaults demoValidPw [] activeRegPayload 1 defaultsUser
    (by decide)
  exact ⟨h.1, h.2.1, h.2.2.1 rfl, h.2.2.2.1 ("StrongPass123")⟩

/-- Rebuilding a string from its character list is the identity. -/
theorem string_mk_append_empty (s : String) : String.mk s.toList ++ ("") = s := by
  cases s with
  | mk data =>
      show String.mk (data ++ []) = String.mk data
      rw [List.append_nil]

/-- C10: the list serializer returns the first 50 characters of a longer
description followed by three dots, returns a description of at most 50
characters verbatim, and the detail serializer always carries the full
description. -/
theorem list_truncates_description (t : Task) :
    (50 < t.description.toList.length →
        (listTasksSerializer t).description
          = String.mk (t.description.toList.take 50) ++ ("...")) ∧
    (t.description.toList.length ≤ 50 →
        (listTasksSerializer t).description = t.description) ∧
    (taskSerializer t).description = t.description := by
  refine ⟨?_, ?_, rfl⟩
  · intro h
    show task_str t = _
    unfold task_str
    rw [if_pos h]
  · intro h
    have hnot : ¬ 50 < t.description.toList.length := Nat.not_lt.mpr h
    show task_str t = t.description
    unfold task_str
    rw [if_neg hnot, List.take_of_length_le h, string_mk_append_empty]

/-- Exercises C10: the 60-character description is truncated at 50 with a
trailing ellipsis, the 8-character one is returned verbatim, and the
detail body keeps the full text. -/
theorem list_truncates_description_witness :
    (listTasksSerializer longTask).description
      = String.mk (longTask.description.toList.take 50) ++ ("...") ∧
    (listTasksSerializer demoTask).description = demoTask.description ∧
    (taskSerializer longTask).description = longTask.description := by
  have h1 := list_truncates_description longTask
  have h2 := list_truncates_description demoTask
  exact ⟨h1.1 (by decide), h2.2.1 (by decide), h1.2.2⟩
